import Mathlib

/-!
# Verification of the Excel AI Analyzer core (src/src/pages/Index.tsx)

A shallow embedding of the data-transformation core of the single-page
spreadsheet analyzer: the tabular model builder (`processOnLoad`), the chart
projector (`getChartData`), the command processor (`executeCommand`), the
drop handler (`handleDrop`) and the close-dataset transition (`closeDataset`),
together with theorems settling the specification's claims.

Spreadsheet cell values are heterogeneous at runtime (number, string,
boolean, or absent), modelled by the tagged union `Cell`.  JS numbers are
modelled by `Int`: no claim depends on non-integral arithmetic.
-/

/-- A runtime cell value as produced by the spreadsheet decoding library:
a JS number, string, boolean, or an absent/undefined slot. -/
inductive Cell where
  | num (n : Int)
  | str (s : String)
  | boolean (b : Bool)
  | empty
deriving DecidableEq, Repr

/-- JS `String(x)` coercion, as used by `Array.prototype.join` and when a
cell is used as an object key. -/
def cellToString : Cell → String
  | Cell.num n => toString n
  | Cell.str s => s
  | Cell.boolean b => if b then "true" else "false"
  | Cell.empty => "undefined"

/-- The `ExcelData` interface: `{ headers: string[]; rows: any[][] }`.
`headers` is populated from the first decoded row by a compile-time cast
(`jsonData[0] as string[]`), which performs no runtime conversion, so the
header entries are kept as raw cells here. -/
structure ExcelData where
  headers : List Cell
  rows : List (List Cell)
deriving DecidableEq, Repr

/-- The `CommandHistory` interface: `{ id, command, result, timestamp }`.
Timestamps are modelled as naturals (milliseconds since epoch). -/
structure CommandHistory where
  id : String
  command : String
  result : String
  timestamp : Nat
deriving DecidableEq, Repr

/-- One toast notification: `{ title, description, variant }`, where
`destructive = true` encodes `variant: 'destructive'` (an error toast). -/
structure Toast where
  title : String
  description : String
  destructive : Bool
deriving DecidableEq, Repr

/-- The component's state hooks, gathered into one record:
`excelData`, `fileName`, `isDragging`, `command`, `commandHistory`,
`isProcessing`. -/
structure SessionState where
  excelData : Option ExcelData
  fileName : String
  isDragging : Bool
  command : String
  commandHistory : List CommandHistory
  isProcessing : Bool
deriving DecidableEq, Repr

/-- The initial state of the component's hooks. -/
def initialState : SessionState :=
  { excelData := none
    fileName := ""
    isDragging := false
    command := ""
    commandHistory := []
    isProcessing := false }

/-- JS `String.prototype.trim()`: strip leading and trailing whitespace. -/
def jsTrim (s : String) : String :=
  String.mk (((s.data.dropWhile Char.isWhitespace).reverse.dropWhile
    Char.isWhitespace).reverse)

/-- JS `String.prototype.endsWith(suffix)`. -/
def jsEndsWith (s suffix : String) : Bool :=
  suffix.data.isSuffixOf s.data

/-- Toast shown when a file is decoded and loaded successfully. -/
def toastFileLoaded (name : String) : Toast :=
  { title := "Файл загружен"
    description := name ++ " успешно обработан"
    destructive := false }

/-- Toast shown when decoding throws. -/
def toastProcessError : Toast :=
  { title := "Ошибка"
    description := "Не удалось обработать файл"
    destructive := true }

/-- Toast shown when a drop contains no spreadsheet file. -/
def toastUnsupported : Toast :=
  { title := "Ошибка"
    description := "Пожалуйста, загрузите Excel файл"
    destructive := true }

/-- Toast shown when a command execution completes. -/
def toastCommandDone : Toast :=
  { title := "Команда выполнена"
    description := "Результат добавлен в историю"
    destructive := false }

/-- The `reader.onload` handler body of `processExcelFile`.  The external
decode (`XLSX.read` + `sheet_to_json`) either throws (`Except.error`) or
yields a 2D array of cells.  On a throw the catch block fires an error
toast.  On success, the model and file name are set and a success toast is
fired only when `jsonData.length > 0`; an empty decoded array falls through
the `if` with no state change and no toast. -/
def processOnLoad (decoded : Except Unit (List (List Cell)))
    (fname : String) (s : SessionState) : SessionState × List Toast :=
  match decoded with
  | Except.error _ => (s, [toastProcessError])
  | Except.ok jsonData =>
    if jsonData.length > 0 then
      ({ s with
          excelData := some { headers := jsonData.headD []
                              rows := jsonData.drop 1 }
          fileName := fname },
        [toastFileLoaded fname])
    else
      (s, [])

/-- Predicate of the `files.find` filter in `handleDrop`: the file name ends
in `.xlsx` or `.xls`. -/
def isExcelName (f : String) : Bool :=
  jsEndsWith f ".xlsx" || jsEndsWith f ".xls"

/-- Result of a drop: the state after the synchronous part of the handler,
the file (if any) handed to `processExcelFile`, and the toasts fired
synchronously by the handler itself. -/
structure DropOutcome where
  state : SessionState
  decodeRequest : Option String
  toasts : List Toast
deriving DecidableEq, Repr

/-- The `handleDrop` callback: clears `isDragging`, searches the dropped
files for the first one with a spreadsheet extension, and either forwards
it to `processExcelFile` or fires an error toast. -/
def handleDrop (files : List String) (s : SessionState) : DropOutcome :=
  let s' := { s with isDragging := false }
  match files.find? isExcelName with
  | some f => { state := s', decodeRequest := some f, toasts := [] }
  | none => { state := s', decodeRequest := none, toasts := [toastUnsupported] }

/-- The result template of `executeCommand`: the raw command text, the row
count, and the headers joined with `", "`, inside fixed Russian text. -/
def mkResultText (cmd : String) (data : ExcelData) : String :=
  "Анализирую команду: \"" ++ cmd ++
    "\"\n\nНайдено " ++ toString data.rows.length ++
    " строк данных.\nКолонки: " ++
    String.intercalate ", " (data.headers.map cellToString) ++
    "\n\nДля полной интеграации с AI подключите DeepSeek API."

/-- A completed run of the `executeCommand` callback (the guard plus the
body of the `setTimeout`, which always fires after the fixed delay).  The
guard returns early when the trimmed command is empty or no data is loaded.
Otherwise the new entry is prepended to the history, the pending command is
cleared, the busy flag (raised at start, lowered in the timeout body) ends
at `false`, and a completion toast fires.  `newId` models
`Date.now().toString()` and `ts` the entry timestamp. -/
def executeCommand (s : SessionState) (newId : String) (ts : Nat) :
    SessionState × List Toast :=
  if jsTrim s.command = "" then (s, [])
  else
    match s.excelData with
    | none => (s, [])
    | some data =>
      ({ s with
          commandHistory :=
            { id := newId
              command := jsTrim s.command
              result := mkResultText s.command data
              timestamp := ts } :: s.commandHistory
          command := ""
          isProcessing := false },
        [toastCommandDone])

/-- One chart data point: `{ name: "Строка {i+1}", [header]: value, ... }`,
split into the synthetic label and the numeric data entries.  The entries
keep the original numeric cells so that a value's provenance is visible in
the model.  This split view backs the series-shape claims; the raw JS
object itself — a single string-keyed map in which a data write whose
header stringifies to `"name"` overwrites the label — is modelled
separately by `chartObjOf` below. -/
structure ChartPoint where
  name : String
  entries : List (String × Cell)
deriving DecidableEq, Repr

/-- The body of the `.map((row, index) => ...)` in `getChartData`: label the
row `Строка {index+1}` and, for each header position `i`, include
`headers[i] -> row[i]` only when `row[i]` is a number (`typeof value ===
'number'`); out-of-range positions read as `undefined` and are skipped. -/
def chartPointOf (headers : List Cell) (index : Nat) (row : List Cell) :
    ChartPoint :=
  { name := "Строка " ++ toString (index + 1)
    entries := headers.enum.filterMap fun p =>
      match row.get? p.1 with
      | some (Cell.num v) => some (cellToString p.2, Cell.num v)
      | _ => none }

/-- `rows.map((row, index) => ...)` with an explicit running index. -/
def buildChartPoints (headers : List Cell) : Nat → List (List Cell) →
    List ChartPoint
  | _, [] => []
  | idx, row :: rest =>
    chartPointOf headers idx row :: buildChartPoints headers (idx + 1) rest

/-- `getChartData` on a present model: return `[]` when there are no rows,
else project the first 10 rows. -/
def getChartData (m : ExcelData) : List ChartPoint :=
  if m.rows.length = 0 then []
  else buildChartPoints m.headers 0 (m.rows.take 10)

/-- `getChartData` including the `!excelData` guard. -/
def getChartDataOpt : Option ExcelData → List ChartPoint
  | none => []
  | some m => getChartData m

/-- JS property assignment `obj[k] = v` on an insertion-ordered object,
modelled as an association list with unique keys: an existing key keeps its
position and gets the new value, a fresh key is appended at the end. -/
def objSet : List (String × Cell) → String → Cell → List (String × Cell)
  | [], k, v => [(k, v)]
  | e :: rest, k, v =>
    if e.1 = k then (k, v) :: rest else e :: objSet rest k v

/-- JS property read `obj[k]`: the value at the first (unique) occurrence
of the key, or `undefined` (`none`). -/
def objGet : List (String × Cell) → String → Option Cell
  | [], _ => none
  | e :: rest, k => if e.1 = k then some e.2 else objGet rest k

/-- The body of the `headers.forEach((header, i) => ...)` loop as an object
write: when `row[i]` is numeric, assign `obj[header] = value`, otherwise
leave the object unchanged. -/
def chartWrite (row : List Cell) (obj : List (String × Cell))
    (p : Nat × Cell) : List (String × Cell) :=
  match row.get? p.1 with
  | some (Cell.num v) => objSet obj (cellToString p.2) (Cell.num v)
  | _ => obj

/-- The raw JS object built by the `.map((row, index) => ...)` body:
start from `{ name: "Строка {index+1}" }` and run the `forEach` writes in
header order.  Faithful to the source in that a write whose header
stringifies to `"name"` lands on the same key as the label and overwrites
it. -/
def chartObjOf (headers : List Cell) (index : Nat) (row : List Cell) :
    List (String × Cell) :=
  headers.enum.foldl (chartWrite row)
    [("name", Cell.str ("Строка " ++ toString (index + 1)))]

/-- `rows.map((row, index) => ...)` over raw JS objects, with an explicit
running index. -/
def buildChartObjs (headers : List Cell) : Nat → List (List Cell) →
    List (List (String × Cell))
  | _, [] => []
  | idx, row :: rest =>
    chartObjOf headers idx row :: buildChartObjs headers (idx + 1) rest

/-- `getChartData` as a sequence of raw JS objects: `[]` when there are no
rows, else the objects for the first 10 rows. -/
def getChartObjs (m : ExcelData) : List (List (String × Cell)) :=
  if m.rows.length = 0 then []
  else buildChartObjs m.headers 0 (m.rows.take 10)

/-- The close-dataset button's `onClick`: `setExcelData(null)`,
`setFileName('')`, `setCommandHistory([])`; nothing else changes. -/
def closeDataset (s : SessionState) : SessionState :=
  { s with excelData := none, fileName := "", commandHistory := [] }

/-- Boolean form of the column-count invariant: every row has exactly
`headers.length` cells. -/
def rowsMatchHeaders (m : ExcelData) : Bool :=
  m.rows.all fun r => r.length == m.headers.length

/-! ## Sample data

The worked scenario of the specification: headers `Name`, `Sales` and data
rows `["Alice", 10]` and `["Bob", "n/a"]`. -/

/-- The decoded 2D array of the specification's worked scenario. -/
def sampleDecoded : List (List Cell) :=
  [[Cell.str "Name", Cell.str "Sales"],
   [Cell.str "Alice", Cell.num 10],
   [Cell.str "Bob", Cell.str "n/a"]]

/-- The model built from `sampleDecoded`: two data rows, two headers. -/
def sampleModel : ExcelData :=
  { headers := [Cell.str "Name", Cell.str "Sales"]
    rows := [[Cell.str "Alice", Cell.num 10], [Cell.str "Bob", Cell.str "n/a"]] }

/-- A loaded session holding `sampleModel` with a typed-in command. -/
def execState : SessionState :=
  { initialState with
      excelData := some sampleModel
      fileName := "sales.xlsx"
      command := "среднее значение" }

/-- A ragged decoded input: the header row has two cells, the single data
row only one. -/
def raggedDecoded : List (List Cell) :=
  [[Cell.str "A", Cell.str "B"], [Cell.str "x"]]

/-- The model the builder produces from `raggedDecoded`. -/
def raggedModel : ExcelData :=
  { headers := [Cell.str "A", Cell.str "B"], rows := [[Cell.str "x"]] }

/-- A model whose single header is the string `"name"` with a numeric cell
below it: its data write collides with the synthetic label key. -/
def nameHeaderModel : ExcelData :=
  { headers := [Cell.str "name"], rows := [[Cell.num 7]] }

/-! ## Helper lemmas -/

theorem string_append_assoc (a b c : String) : a ++ b ++ c = a ++ (b ++ c) :=
  String.ext (by simp)

theorem buildChartPoints_length (headers : List Cell) :
    ∀ (idx : Nat) (l : List (List Cell)),
      (buildChartPoints headers idx l).length = l.length := by
  intro idx l
  induction l generalizing idx with
  | nil => rfl
  | cons row rest ih => simp [buildChartPoints, ih]

theorem buildChartPoints_get? (headers : List Cell) :
    ∀ (l : List (List Cell)) (idx i : Nat),
      (buildChartPoints headers idx l).get? i
        = (l.get? i).map (chartPointOf headers (idx + i)) := by
  intro l
  induction l with
  | nil => intro idx i; rfl
  | cons row rest ih =>
    intro idx i
    cases i with
    | zero => rfl
    | succ i =>
      have h := ih (idx + 1) i
      have e : idx + 1 + i = idx + (i + 1) := by omega
      rw [e] at h
      exact h

theorem objGet_objSet_ne (o : List (String × Cell)) (k k' : String)
    (v : Cell) (h : k ≠ k') : objGet (objSet o k v) k' = objGet o k' := by
  induction o with
  | nil => simp [objSet, objGet, h]
  | cons e rest ih =>
    by_cases ha : e.1 = k
    · simp [objSet, objGet, ha, h]
    · simp [objSet, objGet, ha, ih]

theorem objGet_foldl_chartWrite (row : List Cell) (k : String) :
    ∀ (l : List (Nat × Cell)) (obj : List (String × Cell)),
      (∀ p ∈ l, cellToString p.2 ≠ k) →
      objGet (l.foldl (chartWrite row) obj) k = objGet obj k := by
  intro l
  induction l with
  | nil => intro obj _; rfl
  | cons p rest ih =>
    intro obj hl
    have hp : cellToString p.2 ≠ k := hl p (List.mem_cons_self p rest)
    have hrest : ∀ q ∈ rest, cellToString q.2 ≠ k :=
      fun q hq => hl q (List.mem_cons_of_mem p hq)
    rw [List.foldl_cons, ih _ hrest]
    unfold chartWrite
    split
    · exact objGet_objSet_ne obj _ k _ hp
    · rfl

theorem chartObjOf_name (headers row : List Cell) (index : Nat)
    (hname : ∀ c ∈ headers, cellToString c ≠ "name") :
    objGet (chartObjOf headers index row) "name"
      = some (Cell.str ("Строка " ++ toString (index + 1))) := by
  unfold chartObjOf
  rw [objGet_foldl_chartWrite]
  · rfl
  · intro p hp
    apply hname
    have h1 := List.mem_enum_iff_getElem?.mp hp
    exact List.get?_mem (by rw [List.get?_eq_getElem?]; exact h1)

theorem buildChartObjs_get? (headers : List Cell) :
    ∀ (l : List (List Cell)) (idx i : Nat),
      (buildChartObjs headers idx l).get? i
        = (l.get? i).map (chartObjOf headers (idx + i)) := by
  intro l
  induction l with
  | nil => intro idx i; rfl
  | cons row rest ih =>
    intro idx i
    cases i with
    | zero => rfl
    | succ i =>
      have h := ih (idx + 1) i
      have e : idx + 1 + i = idx + (i + 1) := by omega
      rw [e] at h
      exact h

/-! ## Claims -/

/-- C2 counterexample: decoding that yields an empty row array leaves the
state untouched but signals **no** notification at all — in particular no
error toast, contrary to the claim that a user-visible error is signaled. -/
theorem processOnLoad_empty_counterexample :
    (processOnLoad (Except.ok ([] : List (List Cell))) "data.xlsx"
        initialState).1 = initialState ∧
      (processOnLoad (Except.ok ([] : List (List Cell))) "data.xlsx"
        initialState).2 = [] :=
  ⟨rfl, rfl⟩

/-- C2 (amended): for an empty decoded input sequence, no model is produced
and the whole session state is unchanged, but nothing is signaled either —
the empty input is silently ignored; the error toast fires only when the
decode throws. -/
theorem processOnLoad_empty_silent (f : String) (s : SessionState) :
    processOnLoad (Except.ok ([] : List (List Cell))) f s = (s, []) :=
  rfl

/-- C4: the chart projection of a present model has exactly
`min 10 rows.length` points. -/
theorem getChartData_length (m : ExcelData) :
    (getChartData m).length = min 10 m.rows.length := by
  unfold getChartData
  by_cases h : m.rows.length = 0
  · simp [h]
  · simp [h, buildChartPoints_length, List.length_take]

/-- C7: closing a loaded session clears the model, the file name and the
history together, to exactly `none` / `""` / `[]`. -/
theorem closeDataset_resets (s : SessionState) (h : s.excelData.isSome) :
    (closeDataset s).excelData = none ∧ (closeDataset s).fileName = "" ∧
      (closeDataset s).commandHistory = [] :=
  ⟨rfl, rfl, rfl⟩

/-- Witness for C7 at a concrete loaded session. -/
theorem closeDataset_resets_witness :
    (closeDataset execState).excelData = none ∧
      (closeDataset execState).fileName = "" ∧
      (closeDataset execState).commandHistory = [] :=
  closeDataset_resets execState (by decide)

/-- C10: closing the dataset leaves the in-progress command text and the
busy flag untouched. -/
theorem closeDataset_frame (s : SessionState) :
    (closeDataset s).command = s.command ∧
      (closeDataset s).isProcessing = s.isProcessing :=
  ⟨rfl, rfl⟩

/-- C9: when no dropped file name ends in `.xlsx` or `.xls`, the handler
requests no decode, fires exactly the unsupported-file error toast, and
leaves model, file name and history as they were. -/
theorem handleDrop_rejects (files : List String) (s : SessionState)
    (h : ∀ f ∈ files, isExcelName f = false) :
    (handleDrop files s).state.excelData = s.excelData ∧
      (handleDrop files s).state.fileName = s.fileName ∧
      (handleDrop files s).state.commandHistory = s.commandHistory ∧
      (handleDrop files s).decodeRequest = none ∧
      (handleDrop files s).toasts = [toastUnsupported] := by
  have hf : files.find? isExcelName = none := by
    rw [List.find?_eq_none]
    intro f hfm
    simp [h f hfm]
  simp [handleDrop, hf]

/-- Witness for C9: dropping a single file named `report.pdf`. -/
theorem handleDrop_rejects_witness :
    (handleDrop ["report.pdf"] execState).state.excelData
        = execState.excelData ∧
      (handleDrop ["report.pdf"] execState).state.fileName
        = execState.fileName ∧
      (handleDrop ["report.pdf"] execState).state.commandHistory
        = execState.commandHistory ∧
      (handleDrop ["report.pdf"] execState).decodeRequest = none ∧
      (handleDrop ["report.pdf"] execState).toasts = [toastUnsupported] :=
  handleDrop_rejects ["report.pdf"] execState (by decide)

/-- C1 counterexample: building from the ragged decoded input
`[["A","B"],["x"]]` yields a model whose single data row has 1 cell while
the header row has 2 — the claimed invariant fails because the builder
copies `jsonData.slice(1)` verbatim without padding or truncation. -/
theorem processOnLoad_ragged_counterexample :
    (processOnLoad (Except.ok raggedDecoded) "data.xlsx"
          initialState).1.excelData = some raggedModel ∧
      rowsMatchHeaders raggedModel = false ∧
      raggedModel.headers.length = 2 ∧
      raggedModel.rows.headD [] = [Cell.str "x"] :=
  ⟨rfl, rfl, rfl, rfl⟩

/-- C1 (amended): the builder keeps decoded rows verbatim
(`rows := decoded.slice(1)`), so every row matches the header count exactly
when every decoded row has the same length as the first decoded row; under
that uniform-width assumption the invariant holds for the built model. -/
theorem processOnLoad_uniform_rows_match (decoded : List (List Cell))
    (h1 : 1 ≤ decoded.length)
    (h2 : ∀ r ∈ decoded, r.length = (decoded.headD []).length)
    (f : String) (s : SessionState) :
    ∀ m, (processOnLoad (Except.ok decoded) f s).1.excelData = some m →
      (∀ row ∈ m.rows, row.length = m.headers.length) ∧
        rowsMatchHeaders m = true := by
  cases decoded with
  | nil => simp at h1
  | cons hd tl =>
    intro m hm
    have hm' : ({ headers := hd, rows := tl } : ExcelData) = m := by
      simpa [processOnLoad] using hm
    rw [← hm']
    have hrow : ∀ row ∈ tl, row.length = hd.length := by
      intro row hr
      simpa using h2 row (List.mem_cons_of_mem hd hr)
    refine ⟨hrow, ?_⟩
    rw [rowsMatchHeaders, List.all_eq_true]
    intro row hr
    simpa using hrow row hr

/-- Witness for the amended C1 on the specification's uniform scenario
input. -/
theorem processOnLoad_uniform_rows_match_witness :
    rowsMatchHeaders sampleModel = true :=
  (processOnLoad_uniform_rows_match sampleDecoded (by decide) (by decide)
    "sales.xlsx" initialState sampleModel (by decide)).2

/-- C3 counterexample: on the scenario model the first emitted object's
`name` property is `"Строка 1"`, not `"Row 1"`; and on a model whose
single header is the string `"name"` over a numeric cell, the data write
`obj[header] = value` overwrites the label, so that point carries no
synthetic label at all. -/
theorem getChartObjs_label_counterexample :
    (getChartObjs sampleModel).get? 0
        = some [("name", Cell.str "Строка 1"), ("Sales", Cell.num 10)] ∧
      objGet [("name", Cell.str "Строка 1"), ("Sales", Cell.num 10)] "name"
        ≠ some (Cell.str ("Row " ++ toString (0 + 1))) ∧
      (getChartObjs nameHeaderModel).get? 0 = some [("name", Cell.num 7)] :=
  ⟨by decide, by decide, by decide⟩

/-- C3 (amended): provided no header's string value is `"name"`, the object
emitted for the taken row at 0-based index `i` carries under its `name`
property the synthetic label `"Строка {i+1}"` (the Russian word for "Row"
followed by the 1-based row index); a numeric column whose header
stringifies to `"name"` would instead overwrite the label. -/
theorem getChartObjs_label (m : ExcelData) (i : Nat)
    (o : List (String × Cell))
    (h : (getChartObjs m).get? i = some o)
    (hname : ∀ c ∈ m.headers, cellToString c ≠ "name") :
    objGet o "name" = some (Cell.str ("Строка " ++ toString (i + 1))) := by
  rw [getChartObjs] at h
  by_cases h0 : m.rows.length = 0
  · rw [if_pos h0] at h
    simp at h
  · rw [if_neg h0, buildChartObjs_get?] at h
    cases hr : (m.rows.take 10).get? i with
    | none => rw [hr] at h; simp at h
    | some row =>
      rw [hr, Option.map_some'] at h
      have ho : chartObjOf m.headers (0 + i) row = o := Option.some.inj h
      rw [← ho, chartObjOf_name m.headers row (0 + i) hname]
      simp

/-- Witness for the amended C3 at row index 0 of the scenario model, whose
headers `Name` and `Sales` do not collide with the label key. -/
theorem getChartObjs_label_witness :
    objGet [("name", Cell.str "Строка 1"), ("Sales", Cell.num 10)] "name"
      = some (Cell.str ("Строка " ++ toString (0 + 1))) :=
  getChartObjs_label sampleModel 0
    [("name", Cell.str "Строка 1"), ("Sales", Cell.num 10)]
    (by decide) (by decide)

/-- Inversion of the per-column filter of the chart projector: an entry is
produced only when the cell at that header position is numeric, and the
entry carries exactly that cell. -/
theorem chartPointOf_entry_inv {row : List Cell} {headers : List Cell}
    {index : Nat} {k : String} {v : Cell}
    (hkv : (k, v) ∈ (chartPointOf headers index row).entries) :
    ∃ j h, headers.get? j = some h ∧ k = cellToString h ∧
      row.get? j = some v ∧ ∃ n, v = Cell.num n := by
  rw [chartPointOf] at hkv
  obtain ⟨⟨j, h⟩, hmem, hf⟩ := List.mem_filterMap.mp hkv
  have hjh : headers.get? j = some h := by
    rw [List.get?_eq_getElem?]
    exact List.mem_enum_iff_getElem?.mp hmem
  cases hrj : row.get? j with
  | none =>
    rw [hrj] at hf
    exact Option.noConfusion hf
  | some c =>
    cases c with
    | num n =>
      rw [hrj] at hf
      simp only [Option.some.injEq, Prod.mk.injEq] at hf
      exact ⟨j, h, hjh, hf.1.symm, by rw [hrj, hf.2], n, hf.2.symm⟩
    | str s => rw [hrj] at hf; exact Option.noConfusion hf
    | boolean b => rw [hrj] at hf; exact Option.noConfusion hf
    | empty => rw [hrj] at hf; exact Option.noConfusion hf

/-- C5: every value included in a chart point is a numeric cell, taken
unchanged from the corresponding row position; non-numeric or absent cells
never contribute an entry (in particular nothing is zero-filled). -/
theorem getChartData_values_numeric (m : ExcelData) (p : ChartPoint)
    (hp : p ∈ getChartData m) (k : String) (v : Cell)
    (hkv : (k, v) ∈ p.entries) :
    (∃ n, v = Cell.num n) ∧
      ∃ row ∈ m.rows, ∃ j h, m.headers.get? j = some h ∧
        k = cellToString h ∧ row.get? j = some v := by
  obtain ⟨i, hi⟩ := List.get?_of_mem hp
  rw [getChartData] at hi
  by_cases h0 : m.rows.length = 0
  · rw [if_pos h0] at hi
    simp at hi
  · rw [if_neg h0, buildChartPoints_get?] at hi
    cases hr : (m.rows.take 10).get? i with
    | none => rw [hr] at hi; simp at hi
    | some row =>
      rw [hr, Option.map_some'] at hi
      have hpi : chartPointOf m.headers (0 + i) row = p := Option.some.inj hi
      rw [← hpi] at hkv
      obtain ⟨j, h, hjh, hk, hrj, n, hn⟩ := chartPointOf_entry_inv hkv
      have hrowm : row ∈ m.rows :=
        List.take_subset 10 m.rows (List.get?_mem hr)
      exact ⟨⟨n, hn⟩, row, hrowm, j, h, hjh, hk, hrj⟩

/-- Witness for C5: the entry `("Sales", 10)` of the scenario model's first
chart point. -/
theorem getChartData_values_numeric_witness :
    (∃ n, Cell.num 10 = Cell.num n) ∧
      ∃ row ∈ sampleModel.rows, ∃ j h,
        sampleModel.headers.get? j = some h ∧
          "Sales" = cellToString h ∧ row.get? j = some (Cell.num 10) :=
  getChartData_values_numeric sampleModel
    { name := "Строка 1", entries := [("Sales", Cell.num 10)] }
    (by decide) "Sales" (Cell.num 10) (by decide)

/-- The history entry a completed execution produces: trimmed command, the
templated result text over the loaded data, the fresh id and timestamp. -/
def mkEntry (newId : String) (cmd : String) (data : ExcelData) (ts : Nat) :
    CommandHistory :=
  { id := newId
    command := jsTrim cmd
    result := mkResultText cmd data
    timestamp := ts }

/-- C6: executing command `c1` to completion and then command `c2` to
completion (each typed into the command field first) prepends each entry,
so the history begins with the entry for `c2`, then the entry for `c1`,
then whatever was there before — newest first. -/
theorem executeCommand_newest_first (s : SessionState) (data : ExcelData)
    (c1 c2 id1 id2 : String) (t1 t2 : Nat)
    (hd : s.excelData = some data)
    (h1 : jsTrim c1 ≠ "") (h2 : jsTrim c2 ≠ "") :
    (executeCommand
        { (executeCommand { s with command := c1 } id1 t1).1 with
            command := c2 } id2 t2).1.commandHistory
      = mkEntry id2 c2 data t2 :: mkEntry id1 c1 data t1
          :: s.commandHistory := by
  simp [executeCommand, hd, h1, h2, mkEntry]

/-- Witness for C6: two concrete commands run against the loaded scenario
session. -/
theorem executeCommand_newest_first_witness :
    (executeCommand
        { (executeCommand { execState with command := "среднее значение" }
              "101" 1).1 with
            command := "покажи тренды" } "102" 2).1.commandHistory
      = mkEntry "102" "покажи тренды" sampleModel 2
          :: mkEntry "101" "среднее значение" sampleModel 1
          :: execState.commandHistory :=
  executeCommand_newest_first execState sampleModel
    "среднее значение" "покажи тренды" "101" "102" 1 2
    rfl (by decide) (by decide)

/-- C8: a completed execution against a loaded model prepends an entry
whose result text contains the decimal row count and the headers joined
with `", "` as substrings. -/
theorem executeCommand_result_reports_shape (s : SessionState)
    (data : ExcelData) (newId : String) (ts : Nat)
    (hc : jsTrim s.command ≠ "") (hd : s.excelData = some data) :
    (executeCommand s newId ts).1.commandHistory
        = mkEntry newId s.command data ts :: s.commandHistory ∧
      (∃ a b, mkResultText s.command data
        = a ++ toString data.rows.length ++ b) ∧
      (∃ a b, mkResultText s.command data
        = a ++ String.intercalate ", " (data.headers.map cellToString)
            ++ b) := by
  refine ⟨by simp [executeCommand, hc, hd, mkEntry], ?_, ?_⟩
  · refine ⟨"Анализирую команду: \"" ++ s.command ++ "\"\n\nНайдено ",
      " строк данных.\nКолонки: "
        ++ String.intercalate ", " (data.headers.map cellToString)
        ++ "\n\nДля полной интеграации с AI подключите DeepSeek API.", ?_⟩
    simp [mkResultText, string_append_assoc]
  · refine ⟨"Анализирую команду: \"" ++ s.command ++ "\"\n\nНайдено "
        ++ toString data.rows.length ++ " строк данных.\nКолонки: ",
      "\n\nДля полной интеграации с AI подключите DeepSeek API.", ?_⟩
    simp [mkResultText, string_append_assoc]

/-- Witness for C8: the command `"среднее значение"` against the 2-row
scenario model; the reported count is the literal `"2"` and the joined
headers are the literal `"Name, Sales"`. -/
theorem executeCommand_result_reports_shape_witness :
    ((executeCommand execState "99" 5).1.commandHistory
        = mkEntry "99" execState.command sampleModel 5
            :: execState.commandHistory ∧
      (∃ a b, mkResultText execState.command sampleModel
        = a ++ toString sampleModel.rows.length ++ b) ∧
      (∃ a b, mkResultText execState.command sampleModel
        = a ++ String.intercalate ", "
            (sampleModel.headers.map cellToString) ++ b)) ∧
      toString sampleModel.rows.length = "2" ∧
      String.intercalate ", " (sampleModel.headers.map cellToString)
        = "Name, Sales" :=
  ⟨executeCommand_result_reports_shape execState sampleModel "99" 5
      (by decide) rfl,
    by decide, by decide⟩
